import Mathlib

set_option linter.unusedVariables false
set_option linter.unreachableTactic false
set_option linter.unusedTactic false

/- Verification development for the NOVA SIEGE arcade shooter (`src/main.py`).

   Shallow embedding conventions:
   - Continuous quantities (positions, timers, delta times) are rationals (`ℚ`);
     the Python source uses floats but performs only field arithmetic and
     comparisons on them in the simulation core, so `ℚ` is an exact model.
   - Integer quantities (hit points, damage, score, combo chain) are `ℤ`/`ℕ`,
     matching the Python ints.
   - Purely cosmetic state that gameplay logic never reads (colors, particle
     colors, bullet trails, star x-coordinates after wrap, tilt animation,
     sounds, UI) is omitted; a comment marks each omission.
   - Randomness (spawn kind choice, power-up drops, particle scatter) is not
     modelled: the embedded operations cover the deterministic state updates,
     and random-only effects (drop of a new `PowerUp` object in
     `_on_enemy_killed`, the random x reset of a wrapped star) are omitted,
     never replaced by stubs that claims depend on.
   - `pygame.Rect.colliderect` is embedded as strict-overlap of axis-aligned
     boxes; the witnesses below use integer coordinates, where pygame's
     truncation of float rect coordinates to ints is the identity.
   - `math.hypot` distances are compared only against the constant pulse
     radius; `distance(a,b) <= r` is embedded as the equivalent
     `distSq a b <= r^2` (both sides nonnegative), keeping everything rational
     and decidable. -/

namespace NovaSiege

/- Constants from the CONSTANTS & CONFIGURATION section of main.py. -/

def BASE_W : ℚ := 480
def BASE_H : ℚ := 720

def PLAYER_SPEED : ℚ := 280

def PLAYER_HEALTH : ℤ := 100

def ENEMY_SPAWN_CD : ℚ := 9/5

def COMBO_WINDOW : ℚ := 5/2

def PULSE_RADIUS : ℚ := 120

inductive GameState where
  | MENU
  | PLAYING
  | GAME_OVER
  | PAUSED
  deriving DecidableEq, Repr

/- Utility helpers (`clamp`, `lerp`, `distance`). -/

def clamp (val lo hi : ℚ) : ℚ := max lo (min hi val)

def lerp (a b t : ℚ) : ℚ := a + (b - a) * t

/-- Squared euclidean distance; `distance(x1,y1,x2,y2) <= r` in the source is
embedded as `distSq x1 y1 x2 y2 <= r^2`, which is equivalent for `0 <= r`. -/
def distSq (x1 y1 x2 y2 : ℚ) : ℚ := (x1 - x2)^2 + (y1 - y2)^2

/-- Embedding of `distance(x1, y1, x2, y2) <= r` (source line 1239/1245). -/
def withinRadius (x1 y1 x2 y2 r : ℚ) : Prop := distSq x1 y1 x2 y2 ≤ r^2

instance (x1 y1 x2 y2 r : ℚ) : Decidable (withinRadius x1 y1 x2 y2 r) := by
  unfold withinRadius; infer_instance

/- Axis-aligned rectangles, as produced by the entities' `rect` properties. -/

structure Rect where
  left : ℚ
  top : ℚ
  width : ℚ
  height : ℚ
  deriving DecidableEq

/-- Embedding of `pygame.Rect.colliderect`: strict overlap of the two boxes. -/
def colliderect (a b : Rect) : Prop :=
  a.left < b.left + b.width ∧ b.left < a.left + a.width ∧
  a.top < b.top + b.height ∧ b.top < a.top + a.height

instance (a b : Rect) : Decidable (colliderect a b) := by
  unfold colliderect; infer_instance

/- Star field (decorative; only the scrolled y coordinate and speed matter to
   the claims; the per-star color/size and the random x reset on wrap are
   cosmetic and omitted). -/

structure Star where
  y : ℚ
  speed : ℚ
  deriving DecidableEq

/-- One star's step of `StarField.update` (main.py lines 190-195). -/
def Star.update (dt : ℚ) (s : Star) : Star :=
  let y := s.y + s.speed * 60 * dt
  if BASE_H < y then { s with y := 0 } else { s with y := y }

def starsUpdate (dt : ℚ) (ss : List Star) : List Star :=
  ss.map (Star.update dt)

/- Particle system (cosmetic; colors/sizes omitted). -/

structure Particle where
  x : ℚ
  y : ℚ
  vx : ℚ
  vy : ℚ
  life : ℚ
  gravity : ℚ
  deriving DecidableEq

def Particle.step (dt : ℚ) (p : Particle) : Particle :=
  { p with x := p.x + p.vx * dt, y := p.y + p.vy * dt,
           vy := p.vy + p.gravity * dt }

/-- Embedding of `ParticleSystem.update` (main.py lines 268-277): decrement life, keep and
move only particles whose remaining life is positive. -/
def particlesUpdate (dt : ℚ) (ps : List Particle) : List Particle :=
  ps.filterMap fun p0 =>
    let p := { p0 with life := p0.life - dt }
    if 0 < p.life then some (Particle.step dt p) else none

/- Bullet (the glow trail is cosmetic and omitted). -/

structure Bullet where
  x : ℚ
  y : ℚ
  vx : ℚ
  vy : ℚ
  is_player : Bool
  radius : ℚ
  damage : ℤ
  alive : Bool
  deriving DecidableEq

/-- Embedding of `Bullet.__init__` (main.py lines 299-310). -/
def Bullet.init (x y vx vy : ℚ) (is_player : Bool) : Bullet :=
  { x := x, y := y, vx := vx, vy := vy, is_player := is_player,
    radius := if is_player then 4 else 3,
    damage := if is_player then 20 else 10,
    alive := true }

/-- Embedding of the `Bullet.rect` property (main.py lines 340-343). -/
def Bullet.rect (b : Bullet) : Rect :=
  { left := b.x - b.radius, top := b.y - b.radius,
    width := b.radius * 2, height := b.radius * 2 }

/- Power-ups. -/

inductive PowerUpType where
  | HEALTH
  | SHIELD
  | RAPID_FIRE
  | TRIPLE
  deriving DecidableEq, Repr

structure PowerUp where
  x : ℚ
  y : ℚ
  kind : PowerUpType
  radius : ℚ
  speed : ℚ
  alive : Bool
  age : ℚ
  deriving DecidableEq

/-- Embedding of the `PowerUp.rect` property (main.py lines 404-407). -/
def PowerUp.rect (p : PowerUp) : Rect :=
  { left := p.x - p.radius, top := p.y - p.radius,
    width := p.radius * 2, height := p.radius * 2 }

/- Enemies: the per-kind configuration table ENEMY_CONFIGS. -/

inductive EnemyType where
  | SCOUT
  | HUNTER
  | TANK
  deriving DecidableEq, Repr

inductive MoveType where
  | straight
  | sine
  | track
  deriving DecidableEq, Repr

structure EnemyConfig where
  hp : ℤ
  speed : ℚ
  size : ℚ
  score : ℕ
  fire_rate : ℚ
  move_type : MoveType
  deriving DecidableEq

/-- The `ENEMY_CONFIGS` table (main.py lines 431-435); colors omitted. -/
def ENEMY_CONFIGS : EnemyType → EnemyConfig
  | EnemyType.SCOUT => { hp := 20, speed := 160, size := 16, score := 100,
                         fire_rate := 3/5, move_type := MoveType.sine }
  | EnemyType.HUNTER => { hp := 50, speed := 110, size := 20, score := 250,
                          fire_rate := 4/5, move_type := MoveType.track }
  | EnemyType.TANK => { hp := 120, speed := 55, size := 26, score := 500,
                        fire_rate := 6/5, move_type := MoveType.straight }

/- Enemy state: the fields read or written by the collision/scoring/pulse
   pipeline.  Movement-AI fields (age, fire_cd, sine parameters, vx) are only
   used by `Enemy.update`, which is not involved in any claim, and are
   omitted. -/

structure Enemy where
  x : ℚ
  y : ℚ
  kind : EnemyType
  size : ℚ
  hp : ℤ
  max_hp : ℤ
  score : ℕ
  alive : Bool
  hit_flash : ℚ
  deriving DecidableEq

/-- Embedding of `Enemy.take_damage` (main.py lines 514-518). -/
def Enemy.take_damage (e : Enemy) (amount : ℤ) : Enemy :=
  let hp := e.hp - amount
  { e with hp := hp, hit_flash := 3/25,
           alive := if hp ≤ 0 then false else e.alive }

/-- Embedding of the `Enemy.rect` property (main.py lines 564-567). -/
def Enemy.rect (e : Enemy) : Rect :=
  { left := e.x - e.size, top := e.y - e.size,
    width := e.size * 2, height := e.size * 2 }

/- Player state: the fields read or written by damage application, power-up
   application and the collision pipeline.  Shooting/pulse cooldowns, tilt and
   other fields touched only by input handling or drawing are omitted. -/

structure Player where
  x : ℚ
  y : ℚ
  width : ℚ
  height : ℚ
  hp : ℤ
  max_hp : ℤ
  alive : Bool
  shield_hp : ℤ
  max_shield : ℤ
  invincible : ℚ
  invincible_cd : ℚ
  hit_flash : ℚ
  triple_timer : ℚ
  rapid_fire_timer : ℚ
  deriving DecidableEq

/-- Embedding of `Player.take_damage` (main.py lines 701-715): a no-op while invincible;
otherwise the shield absorbs first, any remainder hits health, and a landed
hit sets the hit flash, resets invincibility, and on death clamps hp to 0 and
clears the alive flag. -/
def Player.take_damage (p : Player) (amount : ℤ) : Player :=
  if 0 < p.invincible then p
  else
    let absorbed : ℤ := if 0 < p.shield_hp then min p.shield_hp amount else 0
    let shield := p.shield_hp - absorbed
    let amt := amount - absorbed
    if 0 < amt then
      let hp := p.hp - amt
      if hp ≤ 0 then
        { p with shield_hp := shield, hp := 0, alive := false,
                 hit_flash := 3/20, invincible := p.invincible_cd }
      else
        { p with shield_hp := shield, hp := hp,
                 hit_flash := 3/20, invincible := p.invincible_cd }
    else
      { p with shield_hp := shield }

/-- Embedding of `Player.apply_powerup` (main.py lines 717-725). -/
def Player.apply_powerup (p : Player) (kind : PowerUpType) : Player :=
  match kind with
  | PowerUpType.HEALTH => { p with hp := min p.max_hp (p.hp + 40) }
  | PowerUpType.SHIELD => { p with shield_hp := p.max_shield }
  | PowerUpType.RAPID_FIRE => { p with rapid_fire_timer := 6 }
  | PowerUpType.TRIPLE => { p with triple_timer := 8 }

/-- Embedding of the `Player.rect` property (main.py lines 770-773). -/
def Player.rect (p : Player) : Rect :=
  { left := p.x - (p.width - 4), top := p.y - (p.height - 4),
    width := (p.width - 4) * 2, height := (p.height - 4) * 2 }

/- Enemy spawner. -/

structure SpawnerSt where
  timer : ℚ
  wave : ℕ
  deriving DecidableEq

/-- Embedding of `difficulty = min(score / 5000, 1.0)` (main.py line 998). -/
def difficulty (score : ℕ) : ℚ := min ((score : ℚ) / 5000) 1

/-- Embedding of `current_cd = lerp(ENEMY_SPAWN_CD, 0.6, difficulty)` (main.py line 999). -/
def spawnInterval (score : ℕ) : ℚ :=
  lerp ENEMY_SPAWN_CD (3/5) (difficulty score)

/-- Embedding of `self.wave = 1 + int(score / 2000)` (main.py line 1000); `score` is a
nonnegative int, so the float truncation is natural-number division. -/
def waveOf (score : ℕ) : ℕ := 1 + score / 2000

/-- Embedding of `EnemySpawner.update` (main.py lines 995-1006); the Bool is whether a
spawn decision was returned (the spawned kind is drawn at random and is not
modelled). -/
def spawnerUpdate (dt : ℚ) (score : ℕ) (s : SpawnerSt) : SpawnerSt × Bool :=
  let cd := spawnInterval score
  let w := waveOf score
  let t := s.timer + dt
  if cd ≤ t then ({ timer := 0, wave := w }, true)
  else ({ timer := t, wave := w }, false)

/- Game controller state: the simulation fields of `Game` owned by the
   collision/scoring pipeline. -/

structure GameSt where
  player : Player
  enemies : List Enemy
  bullets : List Bullet
  powerups : List PowerUp
  score : ℕ
  combo_chain : ℕ
  combo_timer : ℚ
  multiplier : ℕ
  deriving DecidableEq

/-- The multiplier formula `min(5, 1 + combo_chain // 3)` (main.py line
1218). -/
def comboMultiplier (chain : ℕ) : ℕ := min 5 (1 + chain / 3)

/-- Embedding of `Game._on_enemy_killed` (main.py lines 1216-1226); the explosion
particles, sound cue, UI score pop and the random power-up drop are
omitted. -/
def onEnemyKilled (g : GameSt) (e : Enemy) : GameSt :=
  let chain := g.combo_chain + 1
  let mult := comboMultiplier chain
  { g with combo_chain := chain, multiplier := mult,
           combo_timer := COMBO_WINDOW,
           score := g.score + e.score * mult }

/-- Embedding of `Game._break_combo` (main.py lines 1228-1231). -/
def breakCombo (g : GameSt) : GameSt :=
  { g with combo_chain := 0, combo_timer := 0, multiplier := 1 }

/-- The inner loop of the player-bullet pass (main.py lines 1177-1185): scan
the enemy list for the first enemy that is alive and overlaps the bullet's
rect; damage it in place and return it together with the updated list. -/
def damageFirstHit (dmg : ℤ) (br : Rect) : List Enemy → Option (List Enemy × Enemy)
  | [] => none
  | e :: es =>
    if e.alive = true ∧ colliderect br e.rect then
      let e2 := e.take_damage dmg
      some (e2 :: es, e2)
    else
      match damageFirstHit dmg br es with
      | some r => some (e :: r.1, r.2)
      | none => none

/-- The bullet loop of `Game._check_collisions` (main.py lines 1172-1195):
for each bullet in order, dead bullets are skipped; a player bullet damages
the first alive overlapping enemy, is consumed, and triggers kill-scoring if
that enemy died; an enemy bullet overlapping the player applies damage with
the combo-break check and is consumed.  Returns the processed bullet list and
the threaded game state (whose own `bullets` field is left untouched). -/
def bulletPassAux (prect : Rect) : List Bullet → GameSt → List Bullet × GameSt
  | [], g => ([], g)
  | b :: bs, g =>
    if b.alive = false then
      let r := bulletPassAux prect bs g
      (b :: r.1, r.2)
    else if b.is_player = true then
      match damageFirstHit b.damage b.rect g.enemies with
      | some he =>
        let g1 := { g with enemies := he.1 }
        let g2 := if he.2.alive = false then onEnemyKilled g1 he.2 else g1
        let r := bulletPassAux prect bs g2
        ({ b with alive := false } :: r.1, r.2)
      | none =>
        let r := bulletPassAux prect bs g
        (b :: r.1, r.2)
    else
      if colliderect b.rect prect then
        let hpBefore := g.player.hp + g.player.shield_hp
        let p2 := g.player.take_damage b.damage
        let g1 := { g with player := p2 }
        let g2 := if p2.hp + p2.shield_hp < hpBefore then breakCombo g1 else g1
        let r := bulletPassAux prect bs g2
        ({ b with alive := false } :: r.1, r.2)
      else
        let r := bulletPassAux prect bs g
        (b :: r.1, r.2)

/-- The enemy-body pass of `Game._check_collisions` (main.py lines
1197-1206): each alive enemy overlapping the player deals 25 contact damage
(with the combo-break check) and is deactivated. -/
def bodyPassAux (prect : Rect) : List Enemy → GameSt → List Enemy × GameSt
  | [], g => ([], g)
  | e :: es, g =>
    if e.alive = true ∧ colliderect e.rect prect then
      let hpBefore := g.player.hp + g.player.shield_hp
      let p2 := g.player.take_damage 25
      let g1 := { g with player := p2 }
      let g2 := if p2.hp + p2.shield_hp < hpBefore then breakCombo g1 else g1
      let r := bodyPassAux prect es g2
      ({ e with alive := false } :: r.1, r.2)
    else
      let r := bodyPassAux prect es g
      (e :: r.1, r.2)

/-- The power-up pass of `Game._check_collisions` (main.py lines 1208-1214):
each alive power-up overlapping the player is applied and deactivated. -/
def powerupPassAux (prect : Rect) : List PowerUp → Player → List PowerUp × Player
  | [], pl => ([], pl)
  | pu :: ps, pl =>
    if pu.alive = true ∧ colliderect pu.rect prect then
      let pl1 := pl.apply_powerup pu.kind
      let r := powerupPassAux prect ps pl1
      ({ pu with alive := false } :: r.1, r.2)
    else
      let r := powerupPassAux prect ps pl
      (pu :: r.1, r.2)

/-- Embedding of `Game._check_collisions` (main.py lines 1169-1214): player rect computed
once, then the bullet pass, the enemy-body pass, and the power-up pass in
that order. -/
def checkCollisions (g : GameSt) : GameSt :=
  let prect := g.player.rect
  let rb := bulletPassAux prect g.bullets g
  let g1 := { rb.2 with bullets := rb.1 }
  let re := bodyPassAux prect g1.enemies g1
  let g2 := { re.2 with enemies := re.1 }
  let rp := powerupPassAux prect g2.powerups g2.player
  { g2 with powerups := rp.1, player := rp.2 }

/-- The pruning step at the end of `Game._update` (main.py lines
1161-1163). -/
def pruneDead (g : GameSt) : GameSt :=
  { g with enemies := g.enemies.filter (fun e => e.alive),
           bullets := g.bullets.filter (fun b => b.alive),
           powerups := g.powerups.filter (fun p => p.alive) }

/-- The bullet-clearing loop of `Game._trigger_pulse` (main.py lines
1237-1241). -/
def pulseClearBullets (px py : ℚ) (bs : List Bullet) : List Bullet :=
  bs.map fun b =>
    if b.alive = true ∧ b.is_player = false ∧
        withinRadius b.x b.y px py PULSE_RADIUS then
      { b with alive := false }
    else b

/-- The enemy-damaging loop of `Game._trigger_pulse` (main.py lines
1243-1248): each alive enemy within the pulse radius takes 35 damage, and
kill-scoring runs through the same `_on_enemy_killed` as bullet kills. -/
def pulseDamageAux (px py : ℚ) : List Enemy → GameSt → List Enemy × GameSt
  | [], g => ([], g)
  | e :: es, g =>
    if e.alive = true ∧ withinRadius e.x e.y px py PULSE_RADIUS then
      let e2 := e.take_damage 35
      let g1 := if e2.alive = false then onEnemyKilled g e2 else g
      let r := pulseDamageAux px py es g1
      (e2 :: r.1, r.2)
    else
      let r := pulseDamageAux px py es g
      (e :: r.1, r.2)

/-- Embedding of `Game._trigger_pulse` (main.py lines 1233-1248); the visual ring burst
is omitted. -/
def triggerPulse (g : GameSt) : GameSt :=
  let bs := pulseClearBullets g.player.x g.player.y g.bullets
  let re := pulseDamageAux g.player.x g.player.y g.enemies { g with bullets := bs }
  { re.2 with enemies := re.1 }

/-- The delta-time clamp at the top of `Game.run` (main.py line 1071):
`dt = min(dt, 0.05)`. -/
def clampDt (raw : ℚ) : ℚ := min raw (1/20)

/- The whole-process world owned by `Game`. -/

structure World where
  state : GameState
  tick : ℚ
  stars : List Star
  particles : List Particle
  game : GameSt
  spawner : SpawnerSt
  high_score : ℕ
  deriving DecidableEq

/-- The P-key handling of `Game._handle_events` (main.py lines 1102-1105):
Playing and Paused toggle into each other; other states are unaffected. -/
def pauseKey (s : GameState) : GameState :=
  if s = GameState.PLAYING then GameState.PAUSED
  else if s = GameState.PAUSED then GameState.PLAYING
  else s

/-- One iteration of the `Game.run` loop body (main.py lines 1069-1084),
minus event handling (modelled separately by `pauseKey`) and drawing: clamp
the raw delta, advance the cosmetic clock, then dispatch on the game state.
Only the PLAYING branch runs the simulation: its body `Game._update` is taken
as the parameter `update`, since the dispatch facts proved here hold for
every body; MENU scrolls the stars, GAME_OVER scrolls stars and particles,
and PAUSED runs no update at all. -/
def runFrame (raw : ℚ) (update : World → World) (w0 : World) : World :=
  let dt := clampDt raw
  let w := { w0 with tick := w0.tick + dt }
  match w.state with
  | GameState.PLAYING => update w
  | GameState.MENU => { w with stars := starsUpdate dt w.stars }
  | GameState.GAME_OVER =>
      { w with stars := starsUpdate dt w.stars,
               particles := particlesUpdate dt w.particles }
  | GameState.PAUSED => w

/- Shared sample states used by witnesses. -/

def samplePlayer : Player :=
  ⟨240, 620, 22, 30, 100, 100, true, 0, 60, 0, 3/2, 0, 0, 0⟩

def sampleScout : Enemy :=
  ⟨240, 100, EnemyType.SCOUT, 16, 20, 20, 100, true, 0⟩

def sampleGame : GameSt := ⟨samplePlayer, [], [], [], 0, 0, 0, 1⟩

/- Witness material for C2 and C10. -/

def c2Bullet1 : Bullet := Bullet.init 240 100 0 (-600) true

def c2Bullet2 : Bullet := Bullet.init 241 101 0 (-600) true

def c2Game : GameSt :=
  ⟨samplePlayer, [sampleScout], [c2Bullet1, c2Bullet2], [], 0, 0, 0, 1⟩

def invinciblePlayer : Player :=
  ⟨240, 620, 22, 30, 100, 100, true, 50, 60, 1, 3/2, 0, 0, 0⟩

def c10Bullet : Bullet := Bullet.init 240 620 0 260 false

def c10Enemy : Enemy :=
  ⟨240, 620, EnemyType.SCOUT, 16, 20, 20, 100, true, 0⟩

def c10Game : GameSt :=
  ⟨invinciblePlayer, [c10Enemy], [c10Bullet], [], 0, 2, 1, 2⟩

/- Decomposition of `checkCollisions` into its three passes, with the player
rect fixed once at the start (main.py line 1170).  `checkCollisions g` is
definitionally `stage3 prect (stage2 prect (stage1 g))`. -/

def stage1 (g : GameSt) : GameSt :=
  let rb := bulletPassAux g.player.rect g.bullets g
  { rb.2 with bullets := rb.1 }

def stage2 (prect : Rect) (g1 : GameSt) : GameSt :=
  let re := bodyPassAux prect g1.enemies g1
  { re.2 with enemies := re.1 }

def stage3 (prect : Rect) (g2 : GameSt) : GameSt :=
  let rp := powerupPassAux prect g2.powerups g2.player
  { g2 with powerups := rp.1, player := rp.2 }

/-- The facts about one bullet-pass run that the safety claims need:
power-ups untouched, bullets only ever consumed (dead ones skipped
unchanged), enemies only evolve while alive (dead ones untouched), the
player's alive flag never resurrected, and an invincible player untouched. -/
def BulletPassFacts (prect : Rect) (bs : List Bullet) (g : GameSt) : Prop :=
  (bulletPassAux prect bs g).2.powerups = g.powerups ∧
  (bulletPassAux prect bs g).1.length = bs.length ∧
  (∀ (i : ℕ) (a a2 : Bullet), bs[i]? = some a →
    (bulletPassAux prect bs g).1[i]? = some a2 →
    a2 = a ∨ a2 = { a with alive := false }) ∧
  (bulletPassAux prect bs g).2.enemies.length = g.enemies.length ∧
  (∀ (i : ℕ) (a a2 : Enemy), g.enemies[i]? = some a →
    (bulletPassAux prect bs g).2.enemies[i]? = some a2 →
    (a2.alive = true → a.alive = true) ∧ (a.alive = false → a2 = a)) ∧
  ((bulletPassAux prect bs g).2.player.alive = true →
    g.player.alive = true) ∧
  (0 < g.player.invincible → (bulletPassAux prect bs g).2.player = g.player)

/- Helper lemmas shared between several claims. -/

/-- While invincible, `Player.take_damage` is the identity (main.py lines
702-703). -/
theorem take_damage_invincible (p : Player) (a : ℤ) (h : 0 < p.invincible) :
    p.take_damage a = p := by
  simp [Player.take_damage, h]

theorem foldl_take_damage_invincible (p : Player) (l : List ℤ)
    (h : 0 < p.invincible) : List.foldl Player.take_damage p l = p := by
  induction l with
  | nil => rfl
  | cons a l ih =>
      simp only [List.foldl_cons, take_damage_invincible p a h, ih]

/-- C1: for a non-invincible player with nonnegative shield S and damage
D > 0, `take_damage D` absorbs into the shield first: if D ≤ S the shield
drops to S − D and health is untouched; otherwise the shield drops to 0 and
health becomes max(0, H − (D − S)), with the alive flag cleared exactly when
the new health reached ≤ 0 (clamped to 0). -/
theorem c1_shield_absorption (p : Player) (D : ℤ)
    (hinv : p.invincible = 0) (hS : 0 ≤ p.shield_hp) (hD : 0 < D) :
    (D ≤ p.shield_hp →
      (p.take_damage D).shield_hp = p.shield_hp - D ∧
      (p.take_damage D).hp = p.hp ∧
      (p.take_damage D).alive = p.alive) ∧
    (p.shield_hp < D →
      (p.take_damage D).shield_hp = 0 ∧
      (p.take_damage D).hp = max 0 (p.hp - (D - p.shield_hp)) ∧
      (p.hp - (D - p.shield_hp) ≤ 0 → (p.take_damage D).alive = false) ∧
      (0 < p.hp - (D - p.shield_hp) → (p.take_damage D).alive = p.alive)) := by
  have h0 : ¬ (0 : ℚ) < p.invincible := by rw [hinv]; exact lt_irrefl 0
  simp only [Player.take_damage, if_neg h0]
  constructor
  · intro hDS
    have hs : 0 < p.shield_hp := lt_of_lt_of_le hD hDS
    rw [if_pos hs, min_eq_right hDS]
    simp
  · intro hSD
    by_cases hs : 0 < p.shield_hp
    · rw [if_pos hs, min_eq_left (le_of_lt hSD)]
      have hamt : 0 < D - p.shield_hp := by omega
      rw [if_pos hamt]
      by_cases hdie : p.hp - (D - p.shield_hp) ≤ 0
      · rw [if_pos hdie]
        refine ⟨by simp, by simp; omega, fun _ => rfl, fun h => by omega⟩
      · rw [if_neg hdie]
        refine ⟨by simp, by simp; omega, fun h => absurd h hdie, fun _ => rfl⟩
    · rw [if_neg hs]
      have hseq : p.shield_hp = 0 := by omega
      have hamt : 0 < D - 0 := by omega
      rw [if_pos hamt]
      by_cases hdie : p.hp - (D - 0) ≤ 0
      · rw [if_pos hdie]
        refine ⟨by simp; omega, by simp; omega, fun _ => rfl, fun h => by omega⟩
      · rw [if_neg hdie]
        refine ⟨by simp; omega, by simp; omega, fun h => by omega, fun _ => rfl⟩

theorem c1_witness :
    ((100 : ℤ) ≤ 100 ∧
      ((⟨240, 620, 22, 30, 100, 100, true, 100, 100, 0, 3/2, 0, 0, 0⟩ :
          Player).take_damage 100).shield_hp = 0) ∧
    ((50 : ℤ) < 100 ∧
      ((⟨240, 620, 22, 30, 100, 100, true, 50, 60, 0, 3/2, 0, 0, 0⟩ :
          Player).take_damage 100).hp = 50) := by
  constructor
  · refine ⟨by decide, ?_⟩
    have h := (c1_shield_absorption
      (⟨240, 620, 22, 30, 100, 100, true, 100, 100, 0, 3/2, 0, 0, 0⟩ : Player)
      100 rfl (by decide) (by decide)).1 (by decide)
    rw [h.1]; decide
  · refine ⟨by decide, ?_⟩
    have h := (c1_shield_absorption
      (⟨240, 620, 22, 30, 100, 100, true, 50, 60, 0, 3/2, 0, 0, 0⟩ : Player)
      100 rfl (by decide) (by decide)).2 (by decide)
    rw [h.2.1]
    decide

/-- C8: while invincibility is positive, any number of `take_damage` calls,
with any damage amounts, leave health, shield and the alive flag completely
unchanged. -/
theorem c8_invincibility_suppression (p : Player) (amounts : List ℤ)
    (h : 0 < p.invincible) :
    (List.foldl Player.take_damage p amounts).hp = p.hp ∧
    (List.foldl Player.take_damage p amounts).shield_hp = p.shield_hp ∧
    (List.foldl Player.take_damage p amounts).alive = p.alive := by
  rw [foldl_take_damage_invincible p amounts h]
  exact ⟨rfl, rfl, rfl⟩

theorem c8_witness :
    (List.foldl Player.take_damage
      (⟨240, 620, 22, 30, 100, 100, true, 50, 60, 1, 3/2, 0, 0, 0⟩ : Player)
      [25, 10, 35, 20]).hp = 100 := by
  have h := c8_invincibility_suppression
    (⟨240, 620, 22, 30, 100, 100, true, 50, 60, 1, 3/2, 0, 0, 0⟩ : Player)
    [25, 10, 35, 20] (by decide)
  rw [h.1]

/-- C3: every bullet-kill increments the combo chain by one, recomputes the
multiplier as min(5, 1 + chain/3) (chains 0-2 give 1, 3-5 give 2, 12 and
beyond give the cap 5), and adds the enemy's base score value times the
current multiplier to the total score. -/
theorem c3_combo_scoring (g : GameSt) (e : Enemy) :
    (onEnemyKilled g e).combo_chain = g.combo_chain + 1 ∧
    (onEnemyKilled g e).multiplier = comboMultiplier (g.combo_chain + 1) ∧
    (onEnemyKilled g e).score =
      g.score + e.score * (onEnemyKilled g e).multiplier ∧
    (∀ c : ℕ, c ≤ 2 → comboMultiplier c = 1) ∧
    (∀ c : ℕ, 3 ≤ c → c ≤ 5 → comboMultiplier c = 2) ∧
    (∀ c : ℕ, 12 ≤ c → comboMultiplier c = 5) := by
  refine ⟨rfl, rfl, rfl, ?_, ?_, ?_⟩
  · intro c hc
    simp only [comboMultiplier]
    omega
  · intro c h1 h2
    simp only [comboMultiplier]
    omega
  · intro c h
    simp only [comboMultiplier]
    omega

theorem c3_witness :
    (onEnemyKilled sampleGame sampleScout).combo_chain = 1 ∧
    (onEnemyKilled sampleGame sampleScout).score = 100 := by
  have h := c3_combo_scoring sampleGame sampleScout
  refine ⟨h.1, ?_⟩
  rw [h.2.2.1]
  decide

/-- C6: the spawn interval is a non-increasing function of score, equals the
base interval ENEMY_SPAWN_CD at score 0, and equals the 0.6s floor for all
scores at or above 5000; the wave number is 1 + score/2000 (integer
division) and is non-decreasing in score. -/
theorem c6_difficulty_monotonicity :
    (∀ s t : ℕ, s ≤ t → spawnInterval t ≤ spawnInterval s) ∧
    spawnInterval 0 = ENEMY_SPAWN_CD ∧
    (∀ s : ℕ, 5000 ≤ s → spawnInterval s = 3/5) ∧
    (∀ s : ℕ, waveOf s = 1 + s / 2000) ∧
    (∀ s t : ℕ, s ≤ t → waveOf s ≤ waveOf t) := by
  refine ⟨?_, ?_, ?_, fun s => rfl, ?_⟩
  · intro s t hst
    have hd : difficulty s ≤ difficulty t := by
      apply min_le_min _ le_rfl
      have : (s : ℚ) ≤ (t : ℚ) := by exact_mod_cast hst
      linarith
    simp only [spawnInterval, lerp, ENEMY_SPAWN_CD]
    linarith
  · simp [spawnInterval, lerp, difficulty, ENEMY_SPAWN_CD]
  · intro s hs
    have h1 : (1 : ℚ) ≤ (s : ℚ) / 5000 := by
      rw [le_div_iff₀ (by norm_num : (0:ℚ) < 5000)]
      have : (5000 : ℚ) ≤ (s : ℚ) := by exact_mod_cast hs
      linarith
    simp only [spawnInterval, difficulty, min_eq_right h1, lerp,
      ENEMY_SPAWN_CD]
    ring
  · intro s t hst
    simp only [waveOf]
    omega

theorem c6_witness :
    spawnInterval 5000 = 3/5 ∧ spawnInterval 2500 ≤ spawnInterval 0 := by
  exact ⟨c6_difficulty_monotonicity.2.2.1 5000 (by norm_num),
         c6_difficulty_monotonicity.1 0 2500 (by norm_num)⟩

/-- C5 counterexample: the claim as stated says a negative raw delta is
clamped or rejected at the tick boundary, but the source only applies
`min(dt, 0.05)`, so a negative raw delta passes through unchanged and would
propagate. -/
theorem c5_counterexample : clampDt (-1) = -1 ∧ clampDt (-1) < 0 := by
  constructor <;> norm_num [clampDt]

/-- C5 (amended): the delta passed to the simulation tick never exceeds 50 ms
(0.05 s); for the nonnegative deltas the monotonic clock source actually
produces, the clamped value lies in [0, 0.05]; negative raw deltas are not
specially handled. -/
theorem c5_dt_clamp :
    (∀ raw : ℚ, clampDt raw ≤ 1/20) ∧
    (∀ raw : ℚ, 0 ≤ raw → 0 ≤ clampDt raw ∧ clampDt raw ≤ 1/20) := by
  constructor
  · intro raw
    exact min_le_right _ _
  · intro raw h
    exact ⟨le_min h (by norm_num), min_le_right _ _⟩

theorem c5_witness :
    (0 : ℚ) ≤ 1 ∧ 0 ≤ clampDt 1 ∧ clampDt 1 ≤ 1/20 :=
  ⟨by norm_num, (c5_dt_clamp.2 1 (by norm_num)).1,
   (c5_dt_clamp.2 1 (by norm_num)).2⟩

/-- C4 counterexample: the claim as stated says the star field continues to
scroll during Paused, but the run-loop dispatch has no PAUSED branch at all,
so a paused iteration leaves the stars exactly where they were even though a
star-field update would have moved them. -/
theorem c4_counterexample :
    (runFrame (1/100) id
      { state := GameState.PAUSED, tick := 0, stars := [⟨100, 1⟩],
        particles := [], game := sampleGame, spawner := ⟨0, 1⟩,
        high_score := 0 }).stars = [⟨100, 1⟩] ∧
    starsUpdate (clampDt (1/100)) [(⟨100, 1⟩ : Star)] ≠ [⟨100, 1⟩] := by
  constructor
  · rfl
  · have hmin : clampDt (1/100) = 1/100 := by
      rw [clampDt, min_eq_left (by norm_num)]
    have hy : (100 : ℚ) + 1 * 60 * (1/100) = 503/5 := by norm_num
    have hlt : ¬ BASE_H < (503/5 : ℚ) := by rw [BASE_H]; norm_num
    simp only [starsUpdate, List.map_cons, List.map_nil, Star.update, hmin,
      hy, if_neg hlt]
    intro hcontra
    have := List.head_eq_of_cons_eq hcontra
    have hyy : (503/5 : ℚ) = 100 := congrArg Star.y this
    norm_num at hyy

/-- C4 (amended): while Paused, a loop iteration leaves the entire
simulation state unchanged — player, enemies, bullets, power-ups, score,
combo, spawner — and also leaves the star field and particles unchanged
(only the cosmetic clock advances); the pause action toggles Playing to
Paused and Paused back to Playing. -/
theorem c4_pause_freeze (raw : ℚ) (update : World → World) (w : World)
    (h : w.state = GameState.PAUSED) :
    (runFrame raw update w).game = w.game ∧
    (runFrame raw update w).spawner = w.spawner ∧
    (runFrame raw update w).stars = w.stars ∧
    (runFrame raw update w).particles = w.particles ∧
    (runFrame raw update w).state = GameState.PAUSED ∧
    (runFrame raw update w).high_score = w.high_score ∧
    pauseKey GameState.PLAYING = GameState.PAUSED ∧
    pauseKey GameState.PAUSED = GameState.PLAYING := by
  cases w with
  | mk st tk stars parts gm spw hs =>
    simp only at h
    subst h
    exact ⟨rfl, rfl, rfl, rfl, rfl, rfl, rfl, rfl⟩

theorem c4_witness :
    (runFrame 1 id
      { state := GameState.PAUSED, tick := 0, stars := [⟨100, 1⟩],
        particles := [], game := sampleGame, spawner := ⟨0, 1⟩,
        high_score := 0 }).game = sampleGame := by
  have h := c4_pause_freeze 1 id
    { state := GameState.PAUSED, tick := 0, stars := [⟨100, 1⟩],
      particles := [], game := sampleGame, spawner := ⟨0, 1⟩,
      high_score := 0 } rfl
  exact h.1

/-- C2: in one collision pass, with two alive player bullets (damage 20
each) both overlapping the same alive Scout (HP 20), the first bullet kills
the Scout and is consumed, while the second bullet finds no alive target —
the enemy's alive flag is checked before the overlap test — and is left
alive and unconsumed. -/
theorem c2_single_kill_per_pass (g : GameSt) (b1 b2 : Bullet) (e : Enemy)
    (hgb : g.bullets = [b1, b2])
    (hge : g.enemies = [e])
    (hb1a : b1.alive = true) (hb2a : b2.alive = true)
    (hb1p : b1.is_player = true) (hb2p : b2.is_player = true)
    (hd1 : b1.damage = 20)
    (hek : e.kind = EnemyType.SCOUT)
    (hehp : e.hp = (ENEMY_CONFIGS EnemyType.SCOUT).hp)
    (hea : e.alive = true)
    (hc1 : colliderect b1.rect e.rect) (hc2 : colliderect b2.rect e.rect) :
    (bulletPassAux g.player.rect g.bullets g).1 =
      [{ b1 with alive := false }, b2] ∧
    (bulletPassAux g.player.rect g.bullets g).2.enemies =
      [e.take_damage 20] ∧
    (e.take_damage 20).alive = false ∧
    b2.alive = true := by
  have hhp20 : e.hp = 20 := by rw [hehp]; rfl
  have he2 : (e.take_damage 20).alive = false := by
    simp [Enemy.take_damage, hhp20]
  have hd : damageFirstHit b1.damage b1.rect g.enemies =
      some ([e.take_damage 20], e.take_damage 20) := by
    rw [hge, hd1]
    simp only [damageFirstHit]
    rw [if_pos ⟨hea, hc1⟩]
  have hnone : damageFirstHit b2.damage b2.rect [e.take_damage 20] = none := by
    simp [damageFirstHit, he2]
  refine ⟨?_, ?_, he2, hb2a⟩ <;>
    · rw [hgb]
      simp only [bulletPassAux, hb1a, hb1p, hb2a, hb2p, Bool.true_eq_false,
        if_false, if_true, hd, he2, onEnemyKilled, hnone]

/- Lemmas about the collision passes under an invincible player. -/

/-- An enemy bullet hitting an invincible player changes nothing on the
player, so the combo-break comparison never fires: the bullet pass then only
deactivates the colliding enemy bullets. -/
theorem bulletPassAux_enemy_only (prect : Rect) (bs : List Bullet) (g : GameSt)
    (hinv : 0 < g.player.invincible)
    (hb : ∀ b ∈ bs, b.is_player = false) :
    (bulletPassAux prect bs g).1 = bs.map (fun b =>
      if b.alive = true ∧ colliderect b.rect prect then
        { b with alive := false } else b) ∧
    (bulletPassAux prect bs g).2 = g := by
  induction bs generalizing g with
  | nil => exact ⟨rfl, rfl⟩
  | cons b bs ih =>
    have hbf : b.is_player = false := hb b (List.mem_cons_self b bs)
    have hbt : ∀ b2 ∈ bs, b2.is_player = false :=
      fun b2 h2 => hb b2 (List.mem_cons_of_mem b h2)
    have hih := ih g hinv hbt
    cases hab : b.alive with
    | false =>
      simp only [bulletPassAux, hab, List.map_cons, Bool.false_eq_true,
        false_and, if_false, if_true, hih.1, hih.2]
      all_goals first
        | exact ⟨rfl, trivial⟩
        | exact ⟨trivial, rfl⟩
        | exact ⟨rfl, rfl⟩
        | rfl
        | trivial
    | true =>
      have hid := take_damage_invincible g.player b.damage hinv
      by_cases hc : colliderect b.rect prect
      · simp only [bulletPassAux, hab, hbf, Bool.true_eq_false,
          Bool.false_eq_true, if_false, if_true, if_pos hc, hid,
          lt_self_iff_false, List.map_cons, true_and]
        have heta : { g with player := g.player } = g := rfl
        rw [heta, hih.1, hih.2]
        all_goals first
        | exact ⟨rfl, trivial⟩
        | exact ⟨trivial, rfl⟩
        | exact ⟨rfl, rfl⟩
        | rfl
        | trivial
      · simp only [bulletPassAux, hab, hbf, Bool.true_eq_false,
          Bool.false_eq_true, if_false, if_true, if_neg hc,
          List.map_cons, true_and, hih.1, hih.2]
        all_goals first
        | exact ⟨rfl, trivial⟩
        | exact ⟨trivial, rfl⟩
        | exact ⟨rfl, rfl⟩
        | rfl
        | trivial

/-- Enemy body contact with an invincible player deactivates the enemy but
leaves the player and the combo untouched. -/
theorem bodyPassAux_invincible (prect : Rect) (es : List Enemy) (g : GameSt)
    (hinv : 0 < g.player.invincible) :
    (bodyPassAux prect es g).1 = es.map (fun e =>
      if e.alive = true ∧ colliderect e.rect prect then
        { e with alive := false } else e) ∧
    (bodyPassAux prect es g).2 = g := by
  induction es generalizing g with
  | nil => exact ⟨rfl, rfl⟩
  | cons e es ih =>
    have hih := ih g hinv
    by_cases hc : e.alive = true ∧ colliderect e.rect prect
    · have hid := take_damage_invincible g.player 25 hinv
      simp only [bodyPassAux, if_pos hc, hid, lt_self_iff_false, if_false,
        List.map_cons]
      have heta : { g with player := g.player } = g := rfl
      rw [heta, hih.1, hih.2]
      all_goals first
        | exact ⟨rfl, trivial⟩
        | exact ⟨trivial, rfl⟩
        | exact ⟨rfl, rfl⟩
        | rfl
        | trivial
    · simp only [bodyPassAux, if_neg hc, List.map_cons, hih.1, hih.2]
      all_goals first
        | exact ⟨rfl, trivial⟩
        | exact ⟨trivial, rfl⟩
        | exact ⟨rfl, rfl⟩
        | rfl
        | trivial

/-- C10: with invincibility active, colliding objects are still consumed
even though no damage lands: when all bullets in flight are enemy-owned and
no power-up is present, the collision pass deactivates every alive enemy
bullet overlapping the player and every alive enemy body touching the
player, while the player's health, shield and alive flag, and the whole
combo state, are unchanged. -/
theorem c10_invincible_consumption (g : GameSt)
    (hinv : 0 < g.player.invincible)
    (hbul : ∀ b ∈ g.bullets, b.is_player = false)
    (hpow : g.powerups = []) :
    (checkCollisions g).player.hp = g.player.hp ∧
    (checkCollisions g).player.shield_hp = g.player.shield_hp ∧
    (checkCollisions g).player.alive = g.player.alive ∧
    (checkCollisions g).combo_chain = g.combo_chain ∧
    (checkCollisions g).multiplier = g.multiplier ∧
    (checkCollisions g).combo_timer = g.combo_timer ∧
    (checkCollisions g).score = g.score ∧
    (∀ i : ℕ, (checkCollisions g).bullets[i]? = (g.bullets[i]?).map (fun b =>
      if b.alive = true ∧ colliderect b.rect g.player.rect then
        { b with alive := false } else b)) ∧
    (∀ i : ℕ, (checkCollisions g).enemies[i]? = (g.enemies[i]?).map (fun e =>
      if e.alive = true ∧ colliderect e.rect g.player.rect then
        { e with alive := false } else e)) := by
  have h1 := bulletPassAux_enemy_only g.player.rect g.bullets g hinv hbul
  have h2 := bodyPassAux_invincible g.player.rect g.enemies
    { g with bullets := g.bullets.map (fun b =>
        if b.alive = true ∧ colliderect b.rect g.player.rect then
          { b with alive := false } else b) } hinv
  have hcc : checkCollisions g =
      { g with
          bullets := g.bullets.map (fun b =>
            if b.alive = true ∧ colliderect b.rect g.player.rect then
              { b with alive := false } else b),
          enemies := g.enemies.map (fun e =>
            if e.alive = true ∧ colliderect e.rect g.player.rect then
              { e with alive := false } else e),
          powerups := [] } := by
    simp only [checkCollisions]
    rw [h1.1, h1.2]
    rw [h2.1, h2.2]
    rw [hpow]
    rfl
  rw [hcc]
  refine ⟨rfl, rfl, rfl, rfl, rfl, rfl, rfl, ?_, ?_⟩ <;>
    · intro i
      simp only []
      simp [List.getElem?_map]

theorem c2_witness :
    (bulletPassAux c2Game.player.rect c2Game.bullets c2Game).1 =
      [{ c2Bullet1 with alive := false }, c2Bullet2] ∧
    (sampleScout.take_damage 20).alive = false := by
  have h := c2_single_kill_per_pass c2Game c2Bullet1 c2Bullet2 sampleScout
    rfl rfl rfl rfl rfl rfl rfl rfl rfl rfl
    (by norm_num [colliderect, Bullet.rect, Enemy.rect, c2Bullet1,
      Bullet.init, sampleScout])
    (by norm_num [colliderect, Bullet.rect, Enemy.rect, c2Bullet2,
      Bullet.init, sampleScout])
  exact ⟨h.1, h.2.2.1⟩

theorem c10_witness :
    (checkCollisions c10Game).player.hp = c10Game.player.hp ∧
    (checkCollisions c10Game).score = c10Game.score ∧
    (checkCollisions c10Game).combo_chain = c10Game.combo_chain := by
  have h := c10_invincible_consumption c10Game
    (by norm_num [c10Game, invinciblePlayer])
    (by
      intro b hb
      have : b = c10Bullet := by
        have hiff := List.mem_singleton.mp hb
        exact hiff
      rw [this]
      rfl)
    rfl
  exact ⟨h.1, h.2.2.2.2.2.2.1, h.2.2.2.1⟩

/- The defensive pulse (C7). -/

theorem pulseDamageAux_fst (px py : ℚ) :
    ∀ (es : List Enemy) (g : GameSt),
      (pulseDamageAux px py es g).1 = es.map (fun e =>
        if e.alive = true ∧ withinRadius e.x e.y px py PULSE_RADIUS then
          e.take_damage 35 else e) := by
  intro es
  induction es with
  | nil => intro g; rfl
  | cons e es ih =>
    intro g
    by_cases hc : e.alive = true ∧ withinRadius e.x e.y px py PULSE_RADIUS
    · simp only [pulseDamageAux, if_pos hc, List.map_cons, ih]
    · simp only [pulseDamageAux, if_neg hc, List.map_cons, ih]

theorem pulseDamageAux_preserves (px py : ℚ) :
    ∀ (es : List Enemy) (g : GameSt),
      (pulseDamageAux px py es g).2.bullets = g.bullets ∧
      (pulseDamageAux px py es g).2.player = g.player ∧
      (pulseDamageAux px py es g).2.powerups = g.powerups ∧
      (pulseDamageAux px py es g).2.enemies = g.enemies := by
  intro es
  induction es with
  | nil => intro g; exact ⟨rfl, rfl, rfl, rfl⟩
  | cons e es ih =>
    intro g
    by_cases hc : e.alive = true ∧ withinRadius e.x e.y px py PULSE_RADIUS
    · simp only [pulseDamageAux, if_pos hc]
      by_cases hk : (e.take_damage 35).alive = false
      · simp only [if_pos hk]
        exact ih (onEnemyKilled g (e.take_damage 35))
      · simp only [if_neg hk]
        exact ih g
    · simp only [pulseDamageAux, if_neg hc]
      exact ih g

/-- C7: triggering the pulse deactivates exactly the alive enemy bullets
within the pulse radius of the player (inclusive boundary) and deals 35
damage to exactly the alive enemies within the same radius; a point at
distance exactly PULSE_RADIUS is inside, one at any greater distance is
outside; and a pulse kill updates the combo/score state through the same
kill-scoring as a bullet kill. -/
theorem c7_pulse_radius (g : GameSt) :
    (∀ i : ℕ, (triggerPulse g).bullets[i]? = (g.bullets[i]?).map (fun b =>
        if b.alive = true ∧ b.is_player = false ∧
            withinRadius b.x b.y g.player.x g.player.y PULSE_RADIUS then
          { b with alive := false } else b)) ∧
    (∀ i : ℕ, (triggerPulse g).enemies[i]? = (g.enemies[i]?).map (fun e =>
        if e.alive = true ∧
            withinRadius e.x e.y g.player.x g.player.y PULSE_RADIUS then
          e.take_damage 35 else e)) ∧
    (∀ x y : ℚ, withinRadius (x + PULSE_RADIUS) y x y PULSE_RADIUS) ∧
    (∀ x y d : ℚ, PULSE_RADIUS < d →
      ¬ withinRadius (x + d) y x y PULSE_RADIUS) ∧
    (∀ e : Enemy, g.enemies = [e] → e.alive = true →
      withinRadius e.x e.y g.player.x g.player.y PULSE_RADIUS →
      (e.take_damage 35).alive = false →
      (triggerPulse g).score = (onEnemyKilled g (e.take_damage 35)).score ∧
      (triggerPulse g).combo_chain =
        (onEnemyKilled g (e.take_damage 35)).combo_chain ∧
      (triggerPulse g).multiplier =
        (onEnemyKilled g (e.take_damage 35)).multiplier ∧
      (triggerPulse g).combo_timer =
        (onEnemyKilled g (e.take_damage 35)).combo_timer) := by
  refine ⟨?_, ?_, ?_, ?_, ?_⟩
  · intro i
    have hb : (triggerPulse g).bullets =
        pulseClearBullets g.player.x g.player.y g.bullets := by
      simp only [triggerPulse]
      exact (pulseDamageAux_preserves g.player.x g.player.y g.enemies _).1
    rw [hb]
    simp [pulseClearBullets, List.getElem?_map]
  · intro i
    have he : (triggerPulse g).enemies = g.enemies.map (fun e =>
        if e.alive = true ∧
            withinRadius e.x e.y g.player.x g.player.y PULSE_RADIUS then
          e.take_damage 35 else e) := by
      simp only [triggerPulse]
      exact pulseDamageAux_fst g.player.x g.player.y g.enemies _
    rw [he]
    simp [List.getElem?_map]
  · intro x y
    simp only [withinRadius, distSq, PULSE_RADIUS]
    ring_nf
    norm_num
  · intro x y d hd
    simp only [withinRadius, distSq, PULSE_RADIUS] at hd ⊢
    intro hcon
    nlinarith [hcon, hd]
  · intro e hge he hw hk
    have hcond : e.alive = true ∧
        withinRadius e.x e.y g.player.x g.player.y PULSE_RADIUS := ⟨he, hw⟩
    simp only [triggerPulse, hge, pulseDamageAux]
    rw [if_pos hcond, if_pos hk]
    exact ⟨rfl, rfl, rfl, rfl⟩

theorem c7_witness :
    withinRadius (0 + PULSE_RADIUS) 0 0 0 PULSE_RADIUS ∧
    ¬ withinRadius (0 + 121) 0 0 0 PULSE_RADIUS :=
  ⟨(c7_pulse_radius sampleGame).2.2.1 0 0,
   (c7_pulse_radius sampleGame).2.2.2.1 0 0 121 (by norm_num [PULSE_RADIUS])⟩

/- Lemmas for C9: pointwise evolution of each entity collection through the
collision pipeline. -/

theorem bullet_kill_eq_self (b : Bullet) (h : b.alive = false) :
    { b with alive := false } = b := by
  cases b
  simp only at h
  rw [h]

theorem enemy_kill_eq_self (e : Enemy) (h : e.alive = false) :
    { e with alive := false } = e := by
  cases e
  simp only at h
  rw [h]

theorem powerup_kill_eq_self (p : PowerUp) (h : p.alive = false) :
    { p with alive := false } = p := by
  cases p
  simp only at h
  rw [h]

theorem enemy_take_damage_alive_mono (e : Enemy) (d : ℤ)
    (h : (e.take_damage d).alive = true) : e.alive = true := by
  simp only [Enemy.take_damage] at h
  by_cases hle : e.hp - d ≤ 0
  · rw [if_pos hle] at h
    exact absurd h (by simp)
  · rw [if_neg hle] at h
    exact h

theorem player_take_damage_alive_mono (p : Player) (a : ℤ)
    (h : (p.take_damage a).alive = true) : p.alive = true := by
  simp only [Player.take_damage] at h
  split_ifs at h <;> simp_all

/-- Pointwise effect of `damageFirstHit` on the scanned enemy list: every
entry is unchanged, except that one entry that was alive may be replaced by
its damaged version. -/
theorem damageFirstHit_pointwise (dmg : ℤ) (br : Rect) :
    ∀ (es : List Enemy) (r : List Enemy × Enemy),
      damageFirstHit dmg br es = some r →
      r.1.length = es.length ∧
      ∀ (i : ℕ) (a a2 : Enemy), es[i]? = some a → r.1[i]? = some a2 →
        a2 = a ∨ (a.alive = true ∧ a2 = a.take_damage dmg) := by
  intro es
  induction es with
  | nil => intro r h; exact absurd h (by simp [damageFirstHit])
  | cons e es ih =>
    intro r h
    simp only [damageFirstHit] at h
    by_cases hc : e.alive = true ∧ colliderect br e.rect
    · rw [if_pos hc] at h
      have hr := Option.some.inj h
      subst hr
      refine ⟨by simp, ?_⟩
      intro i a a2 ha ha2
      cases i with
      | zero =>
        simp only [List.getElem?_cons_zero] at ha ha2
        have h1 := Option.some.inj ha
        have h2 := Option.some.inj ha2
        subst h1
        subst h2
        exact Or.inr ⟨hc.1, rfl⟩
      | succ j =>
        simp only [List.getElem?_cons_succ] at ha ha2
        rw [ha] at ha2
        exact Or.inl (Option.some.inj ha2).symm
    · rw [if_neg hc] at h
      cases hd : damageFirstHit dmg br es with
      | none => rw [hd] at h; exact absurd h (by simp)
      | some r2 =>
        rw [hd] at h
        have hr := Option.some.inj h
        subst hr
        have hih := ih r2 hd
        refine ⟨by simp [hih.1], ?_⟩
        intro i a a2 ha ha2
        cases i with
        | zero =>
          simp only [List.getElem?_cons_zero] at ha ha2
          have h1 := Option.some.inj ha
          have h2 := Option.some.inj ha2
          subst h1
          subst h2
          exact Or.inl rfl
        | succ j =>
          simp only [List.getElem?_cons_succ] at ha ha2
          exact hih.2 j a a2 ha ha2

theorem enemies_id_transfer (l : List Enemy) :
    ∀ (i : ℕ) (a m : Enemy), l[i]? = some a → l[i]? = some m →
      (m.alive = true → a.alive = true) ∧ (a.alive = false → m = a) := by
  intro i a m ha hm
  rw [ha] at hm
  obtain rfl := Option.some.inj hm
  exact ⟨fun h => h, fun _ => rfl⟩

/-- One step of the bullet-pass induction: if the head bullet reduces to a
kept-or-consumed head over a follow-up state whose enemies/player/power-ups
relate correctly to the original, the whole-pass facts transfer. -/
theorem bulletPassAux_step (prect : Rect) (b hb : Bullet) (bs : List Bullet)
    (g g2 : GameSt)
    (hhead : hb = b ∨ hb = { b with alive := false })
    (hred : bulletPassAux prect (b :: bs) g =
      (hb :: (bulletPassAux prect bs g2).1, (bulletPassAux prect bs g2).2))
    (hpow : g2.powerups = g.powerups)
    (henL : g2.enemies.length = g.enemies.length)
    (hen : ∀ (i : ℕ) (a m : Enemy), g.enemies[i]? = some a →
      g2.enemies[i]? = some m →
      (m.alive = true → a.alive = true) ∧ (a.alive = false → m = a))
    (hpl : g2.player.alive = true → g.player.alive = true)
    (hinvp : 0 < g.player.invincible → g2.player = g.player)
    (IH : BulletPassFacts prect bs g2) :
    BulletPassFacts prect (b :: bs) g := by
  obtain ⟨ih1, ih2, ih3, ih4, ih5, ih6, ih7⟩ := IH
  refine ⟨?_, ?_, ?_, ?_, ?_, ?_, ?_⟩
  · rw [hred]
    exact ih1.trans hpow
  · rw [hred]
    simp [ih2]
  · intro i a a2 ha ha2
    rw [hred] at ha2
    cases i with
    | zero =>
      simp only [List.getElem?_cons_zero] at ha ha2
      obtain rfl := Option.some.inj ha
      obtain rfl := Option.some.inj ha2
      exact hhead
    | succ j =>
      simp only [List.getElem?_cons_succ] at ha ha2
      exact ih3 j a a2 ha ha2
  · rw [hred]
    exact ih4.trans henL
  · intro i a a2 ha ha2
    rw [hred] at ha2
    have hlt0 : i < g.enemies.length := by
      by_contra hge
      rw [List.getElem?_eq_none (le_of_not_lt hge)] at ha
      exact absurd ha (by simp)
    have hlt : i < g2.enemies.length := by
      rw [henL]
      exact hlt0
    obtain ⟨m, hm⟩ : ∃ m, g2.enemies[i]? = some m := by
      cases hmm : g2.enemies[i]? with
      | none =>
        have := List.getElem?_eq_none_iff.mp hmm
        exact absurd this (not_le.mpr hlt)
      | some m => exact ⟨m, rfl⟩
    have h1 := hen i a m ha hm
    have h2 := ih5 i m a2 hm ha2
    constructor
    · intro h
      exact h1.1 (h2.1 h)
    · intro h
      have hma := h1.2 h
      have hmf : m.alive = false := by rw [hma]; exact h
      rw [h2.2 hmf, hma]
  · rw [hred]
    intro h
    exact hpl (ih6 h)
  · rw [hred]
    intro h
    have hp2 := hinvp h
    have h2 : 0 < g2.player.invincible := by rw [hp2]; exact h
    rw [ih7 h2, hp2]

theorem bulletPassAux_facts (prect : Rect) :
    ∀ (bs : List Bullet) (g : GameSt), BulletPassFacts prect bs g := by
  intro bs
  induction bs with
  | nil =>
    intro g
    refine ⟨rfl, rfl, ?_, rfl, ?_, fun h => h, fun _ => rfl⟩
    · intro i a a2 ha ha2
      simp at ha
    · intro i a a2 ha ha2
      simp only [bulletPassAux] at ha2
      rw [ha] at ha2
      obtain rfl := Option.some.inj ha2
      exact ⟨fun h => h, fun _ => rfl⟩
  | cons b bs ih =>
    intro g
    cases hab : b.alive with
    | false =>
      refine bulletPassAux_step prect b b bs g g (Or.inl rfl) ?_ rfl rfl
        (enemies_id_transfer g.enemies) (fun h => h) (fun _ => rfl) (ih g)
      simp [bulletPassAux, hab]
    | true =>
      cases hbp : b.is_player with
      | true =>
        cases hd : damageFirstHit b.damage b.rect g.enemies with
        | none =>
          refine bulletPassAux_step prect b b bs g g (Or.inl rfl) ?_ rfl rfl
            (enemies_id_transfer g.enemies) (fun h => h) (fun _ => rfl) (ih g)
          simp [bulletPassAux, hab, hbp, hd]
        | some he =>
          have hdd := damageFirstHit_pointwise b.damage b.rect g.enemies he hd
          by_cases hk : he.2.alive = false
          · refine bulletPassAux_step prect b { b with alive := false } bs g
              (onEnemyKilled { g with enemies := he.1 } he.2) (Or.inr rfl)
              ?_ rfl ?_ ?_ (fun h => h) (fun _ => rfl) (ih _)
            · simp [bulletPassAux, hab, hbp, hd, hk]
            · exact hdd.1
            · intro i a m ha hm
              rcases hdd.2 i a m ha hm with h | h
              · subst h
                exact ⟨fun h => h, fun _ => rfl⟩
              · exact ⟨fun _ => h.1, fun hf => absurd h.1 (by simp [hf])⟩
          · refine bulletPassAux_step prect b { b with alive := false } bs g
              { g with enemies := he.1 } (Or.inr rfl)
              ?_ rfl ?_ ?_ (fun h => h) (fun _ => rfl) (ih _)
            · simp [bulletPassAux, hab, hbp, hd, hk]
            · exact hdd.1
            · intro i a m ha hm
              rcases hdd.2 i a m ha hm with h | h
              · subst h
                exact ⟨fun h => h, fun _ => rfl⟩
              · exact ⟨fun _ => h.1, fun hf => absurd h.1 (by simp [hf])⟩
      | false =>
        by_cases hc : colliderect b.rect prect
        · by_cases hbr : (g.player.take_damage b.damage).hp +
              (g.player.take_damage b.damage).shield_hp <
              g.player.hp + g.player.shield_hp
          · refine bulletPassAux_step prect b { b with alive := false } bs g
              (breakCombo { g with player := g.player.take_damage b.damage })
              (Or.inr rfl) ?_ rfl rfl
              (enemies_id_transfer g.enemies) ?_ ?_ (ih _)
            · simp [bulletPassAux, hab, hbp, hc, hbr]
            · exact player_take_damage_alive_mono g.player b.damage
            · intro h
              have hid := take_damage_invincible g.player b.damage h
              rw [hid] at hbr
              exact absurd hbr (lt_irrefl _)
          · refine bulletPassAux_step prect b { b with alive := false } bs g
              { g with player := g.player.take_damage b.damage }
              (Or.inr rfl) ?_ rfl rfl
              (enemies_id_transfer g.enemies) ?_ ?_ (ih _)
            · simp [bulletPassAux, hab, hbp, hc, hbr]
            · exact player_take_damage_alive_mono g.player b.damage
            · intro h
              exact take_damage_invincible g.player b.damage h
        · refine bulletPassAux_step prect b b bs g g (Or.inl rfl) ?_ rfl rfl
            (enemies_id_transfer g.enemies) (fun h => h) (fun _ => rfl) (ih g)
          simp [bulletPassAux, hab, hbp, hc]

/-- The enemy-body pass transforms the enemy list elementwise, independently
of the threaded player/combo state. -/
theorem bodyPassAux_fst (prect : Rect) :
    ∀ (es : List Enemy) (g : GameSt),
      (bodyPassAux prect es g).1 = es.map (fun e =>
        if e.alive = true ∧ colliderect e.rect prect then
          { e with alive := false } else e) := by
  intro es
  induction es with
  | nil => intro g; rfl
  | cons e es ih =>
    intro g
    by_cases hc : e.alive = true ∧ colliderect e.rect prect
    · simp only [bodyPassAux, if_pos hc, List.map_cons, ih]
    · simp only [bodyPassAux, if_neg hc, List.map_cons, ih]

theorem bodyPassAux_thread (prect : Rect) :
    ∀ (es : List Enemy) (g : GameSt),
      (bodyPassAux prect es g).2.enemies = g.enemies ∧
      (bodyPassAux prect es g).2.bullets = g.bullets ∧
      (bodyPassAux prect es g).2.powerups = g.powerups ∧
      ((bodyPassAux prect es g).2.player.alive = true →
        g.player.alive = true) ∧
      (0 < g.player.invincible →
        (bodyPassAux prect es g).2.player = g.player) := by
  intro es
  induction es with
  | nil => intro g; exact ⟨rfl, rfl, rfl, fun h => h, fun _ => rfl⟩
  | cons e es ih =>
    intro g
    by_cases hc : e.alive = true ∧ colliderect e.rect prect
    · simp only [bodyPassAux, if_pos hc]
      by_cases hbr : (g.player.take_damage 25).hp +
          (g.player.take_damage 25).shield_hp <
          g.player.hp + g.player.shield_hp
      · rw [if_pos hbr]
        refine ⟨(ih _).1, (ih _).2.1, (ih _).2.2.1, ?_, ?_⟩
        · intro h
          have := (ih _).2.2.2.1 h
          exact player_take_damage_alive_mono g.player 25 this
        · intro h
          have hid := take_damage_invincible g.player 25 h
          rw [hid] at hbr
          exact absurd hbr (lt_irrefl _)
      · rw [if_neg hbr]
        refine ⟨(ih _).1, (ih _).2.1, (ih _).2.2.1, ?_, ?_⟩
        · intro h
          have := (ih _).2.2.2.1 h
          exact player_take_damage_alive_mono g.player 25 this
        · intro h
          have hid := take_damage_invincible g.player 25 h
          have h2 : 0 < ({ g with player := g.player.take_damage 25 } :
              GameSt).player.invincible := by
            show 0 < (g.player.take_damage 25).invincible
            rw [hid]
            exact h
          rw [(ih _).2.2.2.2 h2]
          show g.player.take_damage 25 = g.player
          exact hid
    · simp only [bodyPassAux, if_neg hc]
      exact ih g

theorem powerupPassAux_fst (prect : Rect) :
    ∀ (ps : List PowerUp) (pl : Player),
      (powerupPassAux prect ps pl).1 = ps.map (fun p =>
        if p.alive = true ∧ colliderect p.rect prect then
          { p with alive := false } else p) := by
  intro ps
  induction ps with
  | nil => intro pl; rfl
  | cons p ps ih =>
    intro pl
    by_cases hc : p.alive = true ∧ colliderect p.rect prect
    · simp only [powerupPassAux, if_pos hc, List.map_cons, ih]
    · simp only [powerupPassAux, if_neg hc, List.map_cons, ih]

theorem apply_powerup_presv (pl : Player) (k : PowerUpType) :
    (pl.apply_powerup k).alive = pl.alive ∧
    (pl.apply_powerup k).max_hp = pl.max_hp ∧
    (pl.apply_powerup k).max_shield = pl.max_shield := by
  cases k <;> exact ⟨rfl, rfl, rfl⟩

theorem apply_powerup_mono (pl : Player) (k : PowerUpType)
    (h1 : pl.hp ≤ pl.max_hp) (h2 : pl.shield_hp ≤ pl.max_shield) :
    pl.hp ≤ (pl.apply_powerup k).hp ∧ (pl.apply_powerup k).hp ≤ pl.max_hp ∧
    pl.shield_hp ≤ (pl.apply_powerup k).shield_hp ∧
    (pl.apply_powerup k).shield_hp ≤ pl.max_shield := by
  cases k <;> simp [Player.apply_powerup] <;> omega

theorem powerupPassAux_player (prect : Rect) :
    ∀ (ps : List PowerUp) (pl : Player),
      (powerupPassAux prect ps pl).2.alive = pl.alive ∧
      (pl.hp ≤ pl.max_hp → pl.shield_hp ≤ pl.max_shield →
        pl.hp ≤ (powerupPassAux prect ps pl).2.hp ∧
        pl.shield_hp ≤ (powerupPassAux prect ps pl).2.shield_hp) := by
  intro ps
  induction ps with
  | nil => intro pl; exact ⟨rfl, fun _ _ => ⟨le_refl _, le_refl _⟩⟩
  | cons p ps ih =>
    intro pl
    by_cases hc : p.alive = true ∧ colliderect p.rect prect
    · simp only [powerupPassAux, if_pos hc]
      have hpre := apply_powerup_presv pl p.kind
      constructor
      · rw [(ih _).1, hpre.1]
      · intro h1 h2
        have hm := apply_powerup_mono pl p.kind h1 h2
        have hih := (ih (pl.apply_powerup p.kind)).2
          (by rw [hpre.2.1]; exact hm.2.1)
          (by rw [hpre.2.2]; exact hm.2.2.2)
        exact ⟨le_trans hm.1 hih.1, le_trans hm.2.2.1 hih.2⟩
    · simp only [powerupPassAux, if_neg hc]
      exact ih pl

/-- The function `checkCollisions` is exactly the three stages in order, with the player
rect frozen at the start. -/
theorem checkCollisions_stages (g : GameSt) :
    checkCollisions g = stage3 g.player.rect (stage2 g.player.rect (stage1 g)) :=
  rfl

theorem stage1_facts (g : GameSt) :
    (stage1 g).powerups = g.powerups ∧
    (stage1 g).bullets.length = g.bullets.length ∧
    (∀ (i : ℕ) (a a2 : Bullet), g.bullets[i]? = some a →
      (stage1 g).bullets[i]? = some a2 →
      a2 = a ∨ a2 = { a with alive := false }) ∧
    (stage1 g).enemies.length = g.enemies.length ∧
    (∀ (i : ℕ) (a a2 : Enemy), g.enemies[i]? = some a →
      (stage1 g).enemies[i]? = some a2 →
      (a2.alive = true → a.alive = true) ∧ (a.alive = false → a2 = a)) ∧
    ((stage1 g).player.alive = true → g.player.alive = true) ∧
    (0 < g.player.invincible → (stage1 g).player = g.player) := by
  have h := bulletPassAux_facts g.player.rect g.bullets g
  exact ⟨h.1, h.2.1, h.2.2.1, h.2.2.2.1, h.2.2.2.2.1, h.2.2.2.2.2.1,
    h.2.2.2.2.2.2⟩

theorem stage2_facts (prect : Rect) (g1 : GameSt) :
    (stage2 prect g1).enemies = g1.enemies.map (fun e =>
      if e.alive = true ∧ colliderect e.rect prect then
        { e with alive := false } else e) ∧
    (stage2 prect g1).bullets = g1.bullets ∧
    (stage2 prect g1).powerups = g1.powerups ∧
    ((stage2 prect g1).player.alive = true → g1.player.alive = true) ∧
    (0 < g1.player.invincible → (stage2 prect g1).player = g1.player) := by
  have h := bodyPassAux_thread prect g1.enemies g1
  exact ⟨bodyPassAux_fst prect g1.enemies g1, h.2.1, h.2.2.1, h.2.2.2.1,
    h.2.2.2.2⟩

theorem stage3_facts (prect : Rect) (g2 : GameSt) :
    (stage3 prect g2).powerups = g2.powerups.map (fun p =>
      if p.alive = true ∧ colliderect p.rect prect then
        { p with alive := false } else p) ∧
    (stage3 prect g2).bullets = g2.bullets ∧
    (stage3 prect g2).enemies = g2.enemies ∧
    (stage3 prect g2).player.alive = g2.player.alive ∧
    (g2.player.hp ≤ g2.player.max_hp → g2.player.shield_hp ≤ g2.player.max_shield →
      g2.player.hp ≤ (stage3 prect g2).player.hp ∧
      g2.player.shield_hp ≤ (stage3 prect g2).player.shield_hp) := by
  have h := powerupPassAux_player prect g2.powerups g2.player
  exact ⟨powerupPassAux_fst prect g2.powerups g2.player, rfl, rfl, h.1, h.2⟩

theorem enemy_evol_trans {a b c : Enemy}
    (h1 : (b.alive = true → a.alive = true) ∧ (a.alive = false → b = a))
    (h2 : (c.alive = true → b.alive = true) ∧ (b.alive = false → c = b)) :
    (c.alive = true → a.alive = true) ∧ (a.alive = false → c = a) := by
  constructor
  · intro h
    exact h1.1 (h2.1 h)
  · intro h
    have hb := h1.2 h
    have hba : b.alive = false := by rw [hb]; exact h
    rw [h2.2 hba, hb]

theorem enemy_evol_kill (m : Enemy) (c : Prop) [Decidable c] :
    ((if m.alive = true ∧ c then { m with alive := false } else m).alive =
        true → m.alive = true) ∧
    (m.alive = false →
      (if m.alive = true ∧ c then { m with alive := false } else m) = m) := by
  by_cases hc : m.alive = true ∧ c
  · rw [if_pos hc]
    exact ⟨fun h => by simp at h, fun hf => absurd hc.1 (by simp [hf])⟩
  · rw [if_neg hc]
    exact ⟨fun h => h, fun _ => rfl⟩

theorem powerup_evol_kill (m : PowerUp) (c : Prop) [Decidable c] :
    ((if m.alive = true ∧ c then { m with alive := false } else m).alive =
        true → m.alive = true) ∧
    (m.alive = false →
      (if m.alive = true ∧ c then { m with alive := false } else m) = m) := by
  by_cases hc : m.alive = true ∧ c
  · rw [if_pos hc]
    exact ⟨fun h => by simp at h, fun hf => absurd hc.1 (by simp [hf])⟩
  · rw [if_neg hc]
    exact ⟨fun h => h, fun _ => rfl⟩

theorem bullet_evol_of_disj (a a2 : Bullet)
    (h : a2 = a ∨ a2 = { a with alive := false }) :
    (a2.alive = true → a.alive = true) ∧ (a.alive = false → a2 = a) := by
  rcases h with rfl | rfl
  · exact ⟨fun h => h, fun _ => rfl⟩
  · exact ⟨fun h => by simp at h, fun hf => bullet_kill_eq_self a hf⟩

/-- C9: the alive flag is monotone across the collision pass — no entity is
ever revived — dead enemies, bullets and power-ups pass through the
collision resolution completely untouched (no damage, no scoring effects),
the player is never revived and (in the reachable states, where a dead
player still has invincibility frames running) never loses health or shield
again, and the pruning step keeps exactly the alive entities, preserving
order. -/
theorem c9_no_acts_after_death (g : GameSt) :
    (checkCollisions g).enemies.length = g.enemies.length ∧
    (∀ (i : ℕ) (a a2 : Enemy), g.enemies[i]? = some a →
      (checkCollisions g).enemies[i]? = some a2 →
      (a2.alive = true → a.alive = true) ∧ (a.alive = false → a2 = a)) ∧
    (checkCollisions g).bullets.length = g.bullets.length ∧
    (∀ (i : ℕ) (a a2 : Bullet), g.bullets[i]? = some a →
      (checkCollisions g).bullets[i]? = some a2 →
      (a2.alive = true → a.alive = true) ∧ (a.alive = false → a2 = a)) ∧
    (checkCollisions g).powerups.length = g.powerups.length ∧
    (∀ (i : ℕ) (a a2 : PowerUp), g.powerups[i]? = some a →
      (checkCollisions g).powerups[i]? = some a2 →
      (a2.alive = true → a.alive = true) ∧ (a.alive = false → a2 = a)) ∧
    ((checkCollisions g).player.alive = true → g.player.alive = true) ∧
    (0 < g.player.invincible → g.player.hp ≤ g.player.max_hp →
      g.player.shield_hp ≤ g.player.max_shield →
      g.player.hp ≤ (checkCollisions g).player.hp ∧
      g.player.shield_hp ≤ (checkCollisions g).player.shield_hp ∧
      (checkCollisions g).player.alive = g.player.alive) ∧
    ((pruneDead g).enemies.Sublist g.enemies ∧
      ∀ e ∈ (pruneDead g).enemies, e.alive = true) ∧
    ((pruneDead g).bullets.Sublist g.bullets ∧
      ∀ b ∈ (pruneDead g).bullets, b.alive = true) ∧
    ((pruneDead g).powerups.Sublist g.powerups ∧
      ∀ p ∈ (pruneDead g).powerups, p.alive = true) := by
  have hs1 := stage1_facts g
  have hs2 := stage2_facts g.player.rect (stage1 g)
  have hs3 := stage3_facts g.player.rect (stage2 g.player.rect (stage1 g))
  have hcs := checkCollisions_stages g
  have hEn : (checkCollisions g).enemies = (stage1 g).enemies.map (fun e =>
      if e.alive = true ∧ colliderect e.rect g.player.rect then
        { e with alive := false } else e) := by
    rw [hcs, hs3.2.2.1, hs2.1]
  have hBu : (checkCollisions g).bullets = (stage1 g).bullets := by
    rw [hcs, hs3.2.1, hs2.2.1]
  have hPo : (checkCollisions g).powerups = g.powerups.map (fun p =>
      if p.alive = true ∧ colliderect p.rect g.player.rect then
        { p with alive := false } else p) := by
    rw [hcs, hs3.1, hs2.2.2.1, hs1.1]
  refine ⟨?_, ?_, ?_, ?_, ?_, ?_, ?_, ?_, ?_, ?_, ?_⟩
  · rw [hEn, List.length_map]
    exact hs1.2.2.2.1
  · intro i a a2 ha ha2
    rw [hEn, List.getElem?_map] at ha2
    cases hm : (stage1 g).enemies[i]? with
    | none =>
      rw [hm] at ha2
      exact absurd ha2 (by simp)
    | some m =>
      rw [hm] at ha2
      obtain rfl := Option.some.inj ha2
      exact enemy_evol_trans (hs1.2.2.2.2.1 i a m ha hm)
        (enemy_evol_kill m (colliderect m.rect g.player.rect))
  · rw [hBu]
    exact hs1.2.1
  · intro i a a2 ha ha2
    rw [hBu] at ha2
    exact bullet_evol_of_disj a a2 (hs1.2.2.1 i a a2 ha ha2)
  · rw [hPo, List.length_map]
  · intro i a a2 ha ha2
    rw [hPo, List.getElem?_map, ha] at ha2
    obtain rfl := Option.some.inj ha2
    exact powerup_evol_kill a (colliderect a.rect g.player.rect)
  · intro h
    rw [hcs, hs3.2.2.2.1] at h
    exact hs1.2.2.2.2.2.1 (hs2.2.2.2.1 h)
  · intro hinv hhp hsh
    have hp1 : (stage1 g).player = g.player := hs1.2.2.2.2.2.2 hinv
    have hp2 : (stage2 g.player.rect (stage1 g)).player = g.player := by
      rw [hs2.2.2.2.2 (by rw [hp1]; exact hinv), hp1]
    have hm := hs3.2.2.2.2 (by rw [hp2]; exact hhp) (by rw [hp2]; exact hsh)
    refine ⟨?_, ?_, ?_⟩
    · rw [hcs]
      rw [hp2] at hm
      exact hm.1
    · rw [hcs]
      rw [hp2] at hm
      exact hm.2
    · rw [hcs, hs3.2.2.2.1, hp2]
  · exact ⟨List.filter_sublist _, fun e he => by
      rw [pruneDead] at he
      simp only [List.mem_filter] at he
      exact he.2⟩
  · exact ⟨List.filter_sublist _, fun b hb => by
      rw [pruneDead] at hb
      simp only [List.mem_filter] at hb
      exact hb.2⟩
  · exact ⟨List.filter_sublist _, fun p hp => by
      rw [pruneDead] at hp
      simp only [List.mem_filter] at hp
      exact hp.2⟩

theorem c9_witness :
    invinciblePlayer.hp ≤
      (checkCollisions ⟨invinciblePlayer, [], [], [], 0, 0, 0, 1⟩).player.hp ∧
    invinciblePlayer.shield_hp ≤
      (checkCollisions
        ⟨invinciblePlayer, [], [], [], 0, 0, 0, 1⟩).player.shield_hp := by
  have h := (c9_no_acts_after_death
    ⟨invinciblePlayer, [], [], [], 0, 0, 0, 1⟩).2.2.2.2.2.2.2.1
    (by decide) (by decide) (by decide)
  exact ⟨h.1, h.2.1⟩

end NovaSiege
